import Mathlib

/-!
Shallow embedding of the hiveline trace-analytics and street-graph code.

Conventions of the embedding:
* Go float64 values are modelled as rationals (exact arithmetic).
* Go time.Time and time.Duration values are modelled as Int (nanoseconds);
  the zero time.Time is the integer 0.
* fptf.Mode is a string type in the source, so Mode is String here.
* External library calls (geo.Distance, the k-d tree KNN query, the
  Dijkstra Shortest call, polyline decoding) are parameters of the
  functions that invoke them.
* Go slices are lists; a nil pointer field is an Option.
-/

/-- fptf.Mode is a string type. -/
abbrev Mode := String

/-- fptf.ModeTrain. -/
def modeTrain : Mode := "train"

/-- fptf.ModeGondola. -/
def modeGondola : Mode := "gondola"

/-- fptf.ModeWatercraft. -/
def modeWatercraft : Mode := "watercraft"

/-- fptf.ModeBus. -/
def modeBus : Mode := "bus"

/-- fptf.ModeCar. -/
def modeCar : Mode := "car"

/-- fptf.ModeWalking. -/
def modeWalking : Mode := "walking"

/-- orb.Point: index 0 is the longitude, index 1 the latitude. -/
abbrev GeoPoint := ℚ × ℚ

/-- TraceElement from results/hiveline/traces.go. -/
structure TraceElement where
  point : GeoPoint
  time : Int
  mode : Mode
  isLegStart : Bool
deriving DecidableEq, Inhabited

/-- Trace from results/hiveline/traces.go. -/
structure Trace where
  vcId : String
  routeOptionId : String
  trace : List TraceElement
deriving DecidableEq, Inhabited

/-- TransportShares from results/hiveline/main.go. -/
structure TransportShares where
  car : ℚ
  rail : ℚ
  bus : ℚ
  walk : ℚ
deriving DecidableEq, Inhabited

/-- JourneyStats from results/hiveline/main.go. -/
structure JourneyStats where
  carMeters : ℚ
  railMeters : ℚ
  busMeters : ℚ
  walkMeters : ℚ
  carPassengers : ℚ
  railPassengers : ℚ
  busPassengers : ℚ
  walkers : ℚ
deriving DecidableEq, Inhabited

/-- The Go zero value of JourneyStats (written `&JourneyStats{}` in the source). -/
def emptyStats : JourneyStats :=
  { carMeters := 0, railMeters := 0, busMeters := 0, walkMeters := 0
    carPassengers := 0, railPassengers := 0, busPassengers := 0, walkers := 0 }

/-- JourneyStats.Add from results/hiveline/main.go: component-wise addition. -/
def JourneyStats.add (s other : JourneyStats) : JourneyStats :=
  { carMeters := s.carMeters + other.carMeters
    railMeters := s.railMeters + other.railMeters
    busMeters := s.busMeters + other.busMeters
    walkMeters := s.walkMeters + other.walkMeters
    carPassengers := s.carPassengers + other.carPassengers
    railPassengers := s.railPassengers + other.railPassengers
    busPassengers := s.busPassengers + other.busPassengers
    walkers := s.walkers + other.walkers }

/-- JourneyStats.GetShares from results/hiveline/main.go: per-category
passenger-meters divided by their total, all zero when the total is zero. -/
def JourneyStats.getShares (s : JourneyStats) : TransportShares :=
  let carPm := s.carMeters * s.carPassengers
  let railPm := s.railMeters * s.railPassengers
  let busPm := s.busMeters * s.busPassengers
  let walkPm := s.walkMeters * s.walkers
  let total := carPm + railPm + busPm + walkPm
  if total = 0 then { car := 0, rail := 0, bus := 0, walk := 0 }
  else { car := carPm / total, rail := railPm / total, bus := busPm / total, walk := walkPm / total }

lemma statsAdd_assoc (a b c : JourneyStats) : (a.add b).add c = a.add (b.add c) := by
  cases a; cases b; cases c
  simp only [JourneyStats.add, JourneyStats.mk.injEq]
  refine ⟨?_, ?_, ?_, ?_, ?_, ?_, ?_, ?_⟩ <;> ring

lemma statsAdd_comm (a b : JourneyStats) : a.add b = b.add a := by
  cases a; cases b
  simp only [JourneyStats.add, JourneyStats.mk.injEq]
  refine ⟨?_, ?_, ?_, ?_, ?_, ?_, ?_, ?_⟩ <;> ring

lemma statsAdd_empty_left (a : JourneyStats) : emptyStats.add a = a := by
  cases a
  simp only [JourneyStats.add, emptyStats, JourneyStats.mk.injEq]
  refine ⟨?_, ?_, ?_, ?_, ?_, ?_, ?_, ?_⟩ <;> ring

lemma statsAdd_empty_right (a : JourneyStats) : a.add emptyStats = a := by
  cases a
  simp only [JourneyStats.add, emptyStats, JourneyStats.mk.injEq]
  refine ⟨?_, ?_, ?_, ?_, ?_, ?_, ?_, ?_⟩ <;> ring

/-- Claim C9: JourneyStats.Add is associative and commutative, and the all-zero
JourneyStats is a left and right identity for Add. -/
theorem journeyStats_add_monoid_laws (a b c : JourneyStats) :
    (a.add b).add c = a.add (b.add c) ∧ a.add b = b.add a ∧
      emptyStats.add a = a ∧ a.add emptyStats = a :=
  ⟨statsAdd_assoc a b c, statsAdd_comm a b, statsAdd_empty_left a, statsAdd_empty_right a⟩

/-- Claim C6: when the total passenger-meters of a JourneyStats is zero,
GetShares returns the all-zero TransportShares. -/
theorem getShares_zero_total (s : JourneyStats)
    (h : s.carMeters * s.carPassengers + s.railMeters * s.railPassengers +
         s.busMeters * s.busPassengers + s.walkMeters * s.walkers = 0) :
    s.getShares = { car := 0, rail := 0, bus := 0, walk := 0 } := by
  simp only [JourneyStats.getShares]
  rw [if_pos h]

/-- Witness for claim C6: the all-zero stats record has zero total and indeed
gets the all-zero shares. -/
theorem getShares_zero_total_witness :
    emptyStats.getShares = { car := 0, rail := 0, bus := 0, walk := 0 } :=
  getShares_zero_total emptyStats (by norm_num [emptyStats])

/-- Claim C10: when the total passenger-meters is nonzero, the four returned
shares sum to 1. -/
theorem getShares_sum_to_one (s : JourneyStats)
    (h : s.carMeters * s.carPassengers + s.railMeters * s.railPassengers +
         s.busMeters * s.busPassengers + s.walkMeters * s.walkers ≠ 0) :
    s.getShares.car + s.getShares.rail + s.getShares.bus + s.getShares.walk = 1 := by
  simp only [JourneyStats.getShares]
  rw [if_neg h]
  field_simp

/-- The loop body of getTraceStats from results/hiveline/main.go: one
consecutive pair (fromElem, toElem) is folded into the running stats. Pairs of
differing modes are skipped; the Go switch sends train, gondola and watercraft
(via fallthrough) to the rail counters; its default case only logs. The
great-circle distance geo.Distance of the orb library is the dist parameter. -/
def tallyPair (dist : GeoPoint → GeoPoint → ℚ) (stats : JourneyStats)
    (fromElem toElem : TraceElement) : JourneyStats :=
  if fromElem.mode ≠ toElem.mode then stats
  else
    let d := dist toElem.point fromElem.point
    let pax : ℚ := if fromElem.isLegStart then 1 else 0
    if fromElem.mode = modeTrain ∨ fromElem.mode = modeGondola ∨ fromElem.mode = modeWatercraft then
      { stats with railMeters := stats.railMeters + d, railPassengers := stats.railPassengers + pax }
    else if fromElem.mode = modeBus then
      { stats with busMeters := stats.busMeters + d, busPassengers := stats.busPassengers + pax }
    else if fromElem.mode = modeCar then
      { stats with carMeters := stats.carMeters + d, carPassengers := stats.carPassengers + pax }
    else if fromElem.mode = modeWalking then
      { stats with walkMeters := stats.walkMeters + d, walkers := stats.walkers + pax }
    else stats

/-- The loop of getTraceStats from results/hiveline/main.go over a nonempty
element list: the Go loop ranges over trace.Trace[1:] with index i, pairing
trace.Trace[i] with trace.Trace[i+1]; those consecutive pairs are exactly the
zip of the list with its tail. -/
def tallyPairs (dist : GeoPoint → GeoPoint → ℚ) (l : List TraceElement) : JourneyStats :=
  (l.zip l.tail).foldl (fun s p => tallyPair dist s p.1 p.2) emptyStats

/-- getTraceStats from results/hiveline/main.go. On an empty trace the Go
slice expression trace.Trace[1:] is a[1:0] (low above high) and panics with a
slice-bounds error before any accumulation; none models that panic. On a
nonempty trace the function returns the pair accumulation. -/
def getTraceStats (dist : GeoPoint → GeoPoint → ℚ) (trace : Trace) : Option JourneyStats :=
  match trace.trace with
  | [] => none
  | _ :: _ => some (tallyPairs dist trace.trace)

/-- The contribution of one consecutive pair as claim C2 words it: a pair of
differing modes contributes nothing; a same-mode pair contributes the distance
between its two points to that mode's meter counter (train, gondola and
watercraft all counted as rail) and 1 to that mode's passenger counter when the
first element of the pair is a leg start, 0 otherwise. -/
def claimPairContribution (dist : GeoPoint → GeoPoint → ℚ)
    (fromElem toElem : TraceElement) : JourneyStats :=
  if fromElem.mode ≠ toElem.mode then emptyStats
  else
    let d := dist toElem.point fromElem.point
    let pax : ℚ := if fromElem.isLegStart then 1 else 0
    if fromElem.mode = modeTrain ∨ fromElem.mode = modeGondola ∨ fromElem.mode = modeWatercraft then
      { emptyStats with railMeters := d, railPassengers := pax }
    else if fromElem.mode = modeBus then
      { emptyStats with busMeters := d, busPassengers := pax }
    else if fromElem.mode = modeCar then
      { emptyStats with carMeters := d, carPassengers := pax }
    else if fromElem.mode = modeWalking then
      { emptyStats with walkMeters := d, walkers := pax }
    else emptyStats

lemma tallyPair_eq_add (dist : GeoPoint → GeoPoint → ℚ) (s : JourneyStats)
    (f t : TraceElement) :
    tallyPair dist s f t = s.add (claimPairContribution dist f t) := by
  simp only [tallyPair, claimPairContribution]
  split_ifs <;> (cases s; simp [JourneyStats.add, emptyStats])

lemma foldl_tallyPair_add (dist : GeoPoint → GeoPoint → ℚ)
    (ps : List (TraceElement × TraceElement)) :
    ∀ s : JourneyStats,
      ps.foldl (fun s p => tallyPair dist s p.1 p.2) s =
        s.add (ps.foldl (fun s p => tallyPair dist s p.1 p.2) emptyStats) := by
  induction ps with
  | nil => intro s; simp [statsAdd_empty_right]
  | cons p ps ih =>
    intro s
    simp only [List.foldl_cons]
    rw [ih (tallyPair dist s p.1 p.2), ih (tallyPair dist emptyStats p.1 p.2),
      tallyPair_eq_add, tallyPair_eq_add, statsAdd_empty_left, statsAdd_assoc]

lemma tallyPairs_cons (dist : GeoPoint → GeoPoint → ℚ) (x y : TraceElement)
    (rest : List TraceElement) :
    tallyPairs dist (x :: y :: rest) =
      (claimPairContribution dist x y).add (tallyPairs dist (y :: rest)) := by
  simp only [tallyPairs, List.tail_cons, List.zip_cons_cons, List.foldl_cons]
  rw [foldl_tallyPair_add, tallyPair_eq_add, statsAdd_empty_left]

/-- Claim C2, amended: getTraceStats decomposes over consecutive pairs: the
head pair of a trace of at least two elements contributes exactly
claimPairContribution (nothing when modes differ, distance plus 0/1 passengers
into the mode's counters otherwise); a one-element trace yields the all-zero
stats; the empty trace yields no stats at all, because the Go slice expression
trace.Trace[1:] panics there. -/
theorem getTraceStats_pair_decomposition (dist : GeoPoint → GeoPoint → ℚ)
    (x y : TraceElement) (rest : List TraceElement) (v r : String) (t : Trace)
    (h : t.trace.length < 2) :
    getTraceStats dist ⟨v, r, x :: y :: rest⟩ =
      (getTraceStats dist ⟨v, r, y :: rest⟩).map
        (fun s => (claimPairContribution dist x y).add s) ∧
    getTraceStats dist t = (if t.trace.length = 1 then some emptyStats else none) := by
  constructor
  · show some (tallyPairs dist (x :: y :: rest)) =
      Option.map _ (some (tallyPairs dist (y :: rest)))
    rw [Option.map_some']
    exact congrArg some (tallyPairs_cons dist x y rest)
  · obtain ⟨v', r', l⟩ := t
    match l, h with
    | [], _ => simp [getTraceStats]
    | [a], _ => simp [getTraceStats, tallyPairs]

/-- First element of the witness trace for claim C2. -/
def exElemA : TraceElement := { point := (0, 0), time := 0, mode := modeWalking, isLegStart := true }

/-- Second element of the witness trace for claim C2. -/
def exElemB : TraceElement := { point := (0, 1), time := 60, mode := modeWalking, isLegStart := false }

/-- A concrete stand-in for the external great-circle distance function. -/
def exDist : GeoPoint → GeoPoint → ℚ := fun _ _ => 111

/-- Witness for the amended claim C2 at a concrete two-element walking trace
and a one-element trace. -/
theorem getTraceStats_pair_decomposition_witness :
    getTraceStats exDist ⟨"v", "r", [exElemA, exElemB]⟩ =
      (getTraceStats exDist ⟨"v", "r", [exElemB]⟩).map
        (fun s => (claimPairContribution exDist exElemA exElemB).add s) ∧
    getTraceStats exDist ⟨"v", "r", [exElemB]⟩ =
      (if (Trace.mk "v" "r" [exElemB]).trace.length = 1 then some emptyStats else none) :=
  getTraceStats_pair_decomposition exDist exElemA exElemB [] "v" "r"
    ⟨"v", "r", [exElemB]⟩ (by decide)

/-- Counterexample to claim C2 as stated: on the empty trace getTraceStats
does not produce the all-zero stats; the Go slicing trace.Trace[1:] panics
there (none in this embedding). -/
theorem getTraceStats_empty_counterexample :
    getTraceStats exDist ⟨"v", "r", []⟩ = none ∧
    getTraceStats exDist ⟨"v", "r", []⟩ ≠ some emptyStats := by
  exact ⟨rfl, by decide⟩

/-- A concrete stats record with one car passenger-meter, used as witness input. -/
def statsOneCar : JourneyStats :=
  { carMeters := 1, railMeters := 0, busMeters := 0, walkMeters := 0
    carPassengers := 1, railPassengers := 0, busPassengers := 0, walkers := 0 }

/-- Witness for claim C10: a record with nonzero total whose shares sum to 1. -/
theorem getShares_sum_to_one_witness :
    statsOneCar.getShares.car + statsOneCar.getShares.rail +
      statsOneCar.getShares.bus + statsOneCar.getShares.walk = 1 :=
  getShares_sum_to_one statsOneCar (by norm_num [statsOneCar])

/-- The loop body of downSampleTrace from results/hiveline/traces.go: leg-start
elements are appended unconditionally; for any other element the running
budget grows by the rate and the element is appended (budget decremented by 1)
when the budget reaches 1. The accumulator is (downSampled, buildUp). -/
def downSampleStep (rate : ℚ) (acc : List TraceElement × ℚ)
    (elem : TraceElement) : List TraceElement × ℚ :=
  if elem.isLegStart then (acc.1 ++ [elem], acc.2)
  else
    let b := acc.2 + rate
    if 1 ≤ b then (acc.1 ++ [elem], b - 1) else (acc.1, b)

/-- downSampleTrace from results/hiveline/traces.go. The Go float64 ratio
targetCount/nonLegStartCount is modelled exactly as a rational. -/
def downSampleTrace (trace : Trace) (targetCount : ℕ) : Trace :=
  if trace.trace.length ≤ targetCount then trace
  else
    let nonLegStartCount := (trace.trace.filter (fun e => !e.isLegStart)).length
    if nonLegStartCount ≤ targetCount then trace
    else
      let rate : ℚ := (targetCount : ℚ) / (nonLegStartCount : ℚ)
      { trace with trace := (trace.trace.foldl (downSampleStep rate) ([], 0)).1 }

lemma downSampleStep_mem (rate : ℚ) (e : TraceElement) (he : e.isLegStart = true) :
    ∀ (l : List TraceElement) (acc : List TraceElement × ℚ),
      e ∈ acc.1 ∨ e ∈ l → e ∈ (l.foldl (downSampleStep rate) acc).1 := by
  intro l
  induction l with
  | nil => intro acc h; simpa using h.resolve_right (by simp)
  | cons a l ih =>
    intro acc h
    simp only [List.foldl_cons]
    apply ih
    simp only [downSampleStep]
    rcases h with h | h
    · split_ifs <;> simp [h]
    · rcases List.mem_cons.mp h with rfl | h
      · rw [if_pos he]; simp
      · exact Or.inr h

/-- Claim C5: for a target size at least the number of leg-start elements,
every leg-start element of the trace survives downSampleTrace; and when the
count of non-leg-start elements is at most the target, the trace is returned
unchanged. The bound on the target size is the claim's own hypothesis; the
code keeps leg-start elements for every target size. -/
theorem downSampleTrace_keeps_leg_starts (t : Trace) (targetCount : ℕ)
    (e : TraceElement)
    (hN : (t.trace.filter (fun x => x.isLegStart)).length ≤ targetCount)
    (he : e ∈ t.trace) (hl : e.isLegStart = true) :
    e ∈ (downSampleTrace t targetCount).trace ∧
    ((t.trace.filter (fun x => !x.isLegStart)).length ≤ targetCount →
      downSampleTrace t targetCount = t) := by
  constructor
  · simp only [downSampleTrace]
    split_ifs with h1 h2
    · exact he
    · exact he
    · exact downSampleStep_mem _ e hl t.trace ([], 0) (Or.inr he)
  · intro h
    simp only [downSampleTrace]
    split_ifs <;> rfl

/-- The leg-start element of the witness trace for claim C5. -/
def exLegElem : TraceElement := { point := (5, 5), time := 0, mode := modeCar, isLegStart := true }

/-- A non-leg-start car element used in the witness trace for claim C5. -/
def exMidElem (k : Int) : TraceElement :=
  { point := (5, 5 + k), time := k, mode := modeCar, isLegStart := false }

/-- The witness trace for claim C5: one leg start and three plain elements. -/
def exTraceForSampling : Trace :=
  { vcId := "vc", routeOptionId := "ro", trace := [exLegElem, exMidElem 1, exMidElem 2, exMidElem 3] }

/-- Witness for claim C5 at a concrete trace that really gets downsampled
(four elements, target size one). -/
theorem downSampleTrace_keeps_leg_starts_witness :
    exLegElem ∈ (downSampleTrace exTraceForSampling 1).trace ∧
    ((exTraceForSampling.trace.filter (fun x => !x.isLegStart)).length ≤ 1 →
      downSampleTrace exTraceForSampling 1 = exTraceForSampling) :=
  downSampleTrace_keeps_leg_starts exTraceForSampling 1 exLegElem (by decide)
    (by decide) (by decide)

/-- fptf.Stopover as consumed by extractTrace: the station location (nil when
missing), and the departure and arrival instants; the fptf TimeNullable zero
value is the integer 0 here. -/
structure Stopover where
  location : Option GeoPoint
  departure : Int
  arrival : Int
deriving DecidableEq, Inhabited

/-- fptf.Trip (a leg) as consumed by the hiveline code: its polyline string,
mode, departure and arrival instants, origin and destination locations (the
fptf GetLocation getters may return nil), stopovers, and the result of the
external getter trip.GetMode() (a possibly nil mode pointer). -/
structure Leg where
  polyline : String
  mode : Mode
  getMode : Option Mode
  departure : Int
  arrival : Int
  origin : Option GeoPoint
  destination : Option GeoPoint
  stopovers : List Stopover
deriving DecidableEq, Inhabited

/-- fptf.Journey as consumed by getSelectedOption: its trips and the results
of the external getters GetDeparture, GetDepartureDelay (seconds), GetArrival
and GetArrivalDelay (seconds). -/
structure Journey where
  trips : List Leg
  departure : Int
  departureDelay : Option Int
  arrival : Int
  arrivalDelay : Option Int
deriving DecidableEq, Inhabited

/-- RouteOption from results/hiveline/dbscan.go. -/
structure RouteOption where
  routeOptionId : String
  origin : List ℚ
  destination : List ℚ
  departure : Int
  modes : List Mode
  journey : Journey
  vcId : String
deriving DecidableEq, Inhabited

/-- Vehicles from results/hiveline/dbscan.go. -/
structure Vehicles where
  car : Option Int
  moto : Option Int
  utilities : Option Int
  usage : Option String
deriving DecidableEq, Inhabited

/-- Traveller from results/hiveline/dbscan.go. -/
structure Traveller where
  employed : Bool
  employmentType : Option String
  vehicles : Vehicles
  age : String
  vcCreated : Int
deriving DecidableEq, Inhabited

/-- RouteResult from results/hiveline/dbscan.go. -/
structure RouteResult where
  docId : String
  vcId : String
  simId : String
  traveller : Traveller
  options : List RouteOption
deriving DecidableEq, Inhabited

/-- Traveller.WouldUseCar from results/hiveline/dbscan.go: false exactly when
Vehicles.Usage is nil. -/
def Traveller.wouldUseCar (t : Traveller) : Bool :=
  match t.vehicles.usage with
  | none => false
  | some _ => true

/-- RouteOption.IsCar from results/hiveline/dbscan.go: some trip's GetMode is
non-nil and equals the car mode. -/
def RouteOption.isCar (r : RouteOption) : Bool :=
  r.journey.trips.any fun trip =>
    match trip.getMode with
    | some m => decide (m = modeCar)
    | none => false

/-- The delay-adjusted departure computed in getSelectedOption: the journey
departure plus the departure delay (seconds, scaled to nanoseconds by the
time.Duration multiplication) when that delay is non-nil. -/
def Journey.adjustedDeparture (j : Journey) : Int :=
  match j.departureDelay with
  | none => j.departure
  | some d => j.departure + d * 1000000000

/-- The delay-adjusted arrival computed in getSelectedOption. -/
def Journey.adjustedArrival (j : Journey) : Int :=
  match j.arrivalDelay with
  | none => j.arrival
  | some d => j.arrival + d * 1000000000

/-- The delay-adjusted duration arr.Sub(dep) computed in getSelectedOption. -/
def RouteOption.adjustedDuration (o : RouteOption) : Int :=
  o.journey.adjustedArrival - o.journey.adjustedDeparture

/-- The skip condition of the loop of getSelectedOption: a car option is
skipped when the traveller would not use a car. -/
def skipOption (w : Bool) (o : RouteOption) : Bool :=
  !w && o.isCar

/-- The loop of getSelectedOption from results/hiveline/traces.go, with the
mutable pair (selected, duration) as an Option accumulator: an option is
skipped by skipOption; otherwise it replaces the accumulator when nothing is
selected yet or its delay-adjusted duration is strictly smaller. -/
def selLoop (w : Bool) : Option (RouteOption × Int) → List RouteOption → Option (RouteOption × Int)
  | acc, [] => acc
  | acc, o :: rest =>
    if skipOption w o then selLoop w acc rest
    else
      match acc with
      | none => selLoop w (some (o, o.adjustedDuration)) rest
      | some (s, d) =>
        if o.adjustedDuration < d then selLoop w (some (o, o.adjustedDuration)) rest
        else selLoop w (some (s, d)) rest

/-- getSelectedOption from results/hiveline/traces.go: run the loop over the
result's options starting from nil; on success the selected option's vcId
field is set to the result's VcId before it is returned. -/
def getSelectedOption (result : RouteResult) : Option RouteOption :=
  match selLoop result.traveller.wouldUseCar none result.options with
  | none => none
  | some (s, _) => some { s with vcId := result.vcId }

lemma selLoop_none_iff (w : Bool) (os : List RouteOption) :
    ∀ acc, selLoop w acc os = none ↔ acc = none ∧ ∀ o ∈ os, skipOption w o = true := by
  induction os with
  | nil => intro acc; simp [selLoop]
  | cons o rest ih =>
    intro acc
    simp only [selLoop]
    by_cases hs : skipOption w o = true
    · rw [if_pos hs, ih]
      constructor
      · rintro ⟨h1, h2⟩
        exact ⟨h1, by simpa [hs] using h2⟩
      · rintro ⟨h1, h2⟩
        exact ⟨h1, fun o' ho' => h2 o' (List.mem_cons_of_mem o ho')⟩
    · rw [if_neg hs]
      match acc with
      | none =>
        rw [ih]
        simp [hs]
      | some (s, d) =>
        dsimp only
        constructor
        · intro h
          exfalso
          split_ifs at h <;> simpa using ((ih _).mp h).1
        · rintro ⟨h1, _⟩
          cases h1

lemma selLoop_some_spec (w : Bool) (os : List RouteOption) :
    ∀ (acc : Option (RouteOption × Int)) (s : RouteOption) (d : Int),
      (∀ s0 d0, acc = some (s0, d0) → d0 = s0.adjustedDuration) →
      selLoop w acc os = some (s, d) →
      d = s.adjustedDuration ∧
      (acc = some (s, d) ∨ (s ∈ os ∧ skipOption w s = false)) ∧
      (∀ o ∈ os, skipOption w o = false → d ≤ o.adjustedDuration) ∧
      (∀ s0 d0, acc = some (s0, d0) → d ≤ d0) := by
  induction os with
  | nil =>
    intro acc s d hacc h
    simp only [selLoop] at h
    subst h
    refine ⟨hacc s d rfl, Or.inl rfl, by simp, ?_⟩
    rintro s0 d0 ⟨⟩
    exact le_refl d
  | cons o rest ih =>
    intro acc s d hacc h
    simp only [selLoop] at h
    by_cases hs : skipOption w o = true
    · rw [if_pos hs] at h
      obtain ⟨hd, hmem, hmin, haccb⟩ := ih acc s d hacc h
      refine ⟨hd, ?_, ?_, haccb⟩
      · rcases hmem with h' | ⟨h1, h2⟩
        · exact Or.inl h'
        · exact Or.inr ⟨List.mem_cons_of_mem o h1, h2⟩
      · intro o' ho' hsk
        rcases List.mem_cons.mp ho' with rfl | ho'
        · exact absurd hs (by simp [hsk])
        · exact hmin o' ho' hsk
    · rw [if_neg hs] at h
      replace hs : skipOption w o = false := by
        cases hsk : skipOption w o
        · rfl
        · exact absurd hsk hs
      match acc, hacc with
      | none, _ =>
        dsimp only at h
        obtain ⟨hd, hmem, hmin, haccb⟩ :=
          ih (some (o, o.adjustedDuration)) s d (by rintro s0 d0 ⟨⟩; rfl) h
        refine ⟨hd, ?_, ?_, ?_⟩
        · rcases hmem with h' | ⟨h1, h2⟩
          · obtain ⟨⟩ := h'
            exact Or.inr ⟨List.mem_cons_self o rest, hs⟩
          · exact Or.inr ⟨List.mem_cons_of_mem o h1, h2⟩
        · intro o' ho' hsk
          rcases List.mem_cons.mp ho' with rfl | ho'
          · exact haccb o' o'.adjustedDuration rfl
          · exact hmin o' ho' hsk
        · rintro s0 d0 ⟨⟩
      | some (s1, d1), hacc =>
        dsimp only at h
        have hd1 : d1 = s1.adjustedDuration := hacc s1 d1 rfl
        by_cases hlt : o.adjustedDuration < d1
        · rw [if_pos hlt] at h
          obtain ⟨hd, hmem, hmin, haccb⟩ :=
            ih (some (o, o.adjustedDuration)) s d (by rintro s0 d0 ⟨⟩; rfl) h
          refine ⟨hd, ?_, ?_, ?_⟩
          · rcases hmem with h' | ⟨h1, h2⟩
            · obtain ⟨⟩ := h'
              exact Or.inr ⟨List.mem_cons_self o rest, hs⟩
            · exact Or.inr ⟨List.mem_cons_of_mem o h1, h2⟩
          · intro o' ho' hsk
            rcases List.mem_cons.mp ho' with rfl | ho'
            · exact haccb o' o'.adjustedDuration rfl
            · exact hmin o' ho' hsk
          · rintro s0 d0 ⟨⟩
            exact le_of_lt (lt_of_le_of_lt (haccb o o.adjustedDuration rfl) hlt)
        · rw [if_neg hlt] at h
          push_neg at hlt
          obtain ⟨hd, hmem, hmin, haccb⟩ := ih (some (s1, d1)) s d hacc h
          refine ⟨hd, ?_, ?_, ?_⟩
          · rcases hmem with h' | ⟨h1, h2⟩
            · exact Or.inl h'
            · exact Or.inr ⟨List.mem_cons_of_mem o h1, h2⟩
          · intro o' ho' hsk
            rcases List.mem_cons.mp ho' with rfl | ho'
            · exact le_trans (haccb s1 d1 rfl) hlt
            · exact hmin o' ho' hsk
          · exact haccb

/-- Claim C1: getSelectedOption returns an option of minimum delay-adjusted
duration among the result's options that are not skipped (a car option is
skipped exactly when the traveller would not use a car, and WouldUseCar is
true iff Vehicles.Usage is non-nil); it returns nil exactly when every option
is skipped. The returned value is the chosen option with its vcId field set to
the result's VcId. -/
theorem getSelectedOption_minimal (result : RouteResult) :
    result.traveller.wouldUseCar = result.traveller.vehicles.usage.isSome ∧
    (getSelectedOption result = none ↔
      ∀ o ∈ result.options, skipOption result.traveller.wouldUseCar o = true) ∧
    (∀ sel, getSelectedOption result = some sel →
      ∃ o ∈ result.options,
        sel = { o with vcId := result.vcId } ∧
        skipOption result.traveller.wouldUseCar o = false ∧
        ∀ o' ∈ result.options, skipOption result.traveller.wouldUseCar o' = false →
          o.adjustedDuration ≤ o'.adjustedDuration) := by
  refine ⟨?_, ?_, ?_⟩
  · cases h : result.traveller.vehicles.usage <;> simp [Traveller.wouldUseCar, h]
  · unfold getSelectedOption
    rcases h : selLoop result.traveller.wouldUseCar none result.options with - | ⟨s, d⟩
    · simpa using (selLoop_none_iff result.traveller.wouldUseCar result.options none).mp h
    · dsimp only
      constructor
      · intro hc
        cases hc
      · intro hall
        have := (selLoop_none_iff result.traveller.wouldUseCar result.options none).mpr
          ⟨rfl, hall⟩
        rw [h] at this
        cases this
  · intro sel hsel
    unfold getSelectedOption at hsel
    rcases h : selLoop result.traveller.wouldUseCar none result.options with - | ⟨s, d⟩ <;>
      rw [h] at hsel
    · cases hsel
    · dsimp only at hsel
      obtain ⟨⟩ := hsel
      obtain ⟨hd, hmem, hmin, -⟩ :=
        selLoop_some_spec result.traveller.wouldUseCar result.options none s d
          (by rintro s0 d0 ⟨⟩) h
      rcases hmem with h' | ⟨h1, h2⟩
      · cases h'
      · exact ⟨s, h1, rfl, h2, by simpa [hd] using hmin⟩

/-- A car leg whose external GetMode getter reports the car mode. -/
def exCarLeg : Leg :=
  { polyline := "", mode := modeCar, getMode := some modeCar, departure := 0,
    arrival := 1000000000, origin := none, destination := none, stopovers := [] }

/-- A bus leg whose external GetMode getter reports the bus mode. -/
def exBusLeg : Leg :=
  { polyline := "", mode := modeBus, getMode := some modeBus, departure := 0,
    arrival := 5000000000, origin := none, destination := none, stopovers := [] }

/-- A fast car option (one second of travel). -/
def exCarOption : RouteOption :=
  { routeOptionId := "opt-car", origin := [], destination := [], departure := 0,
    modes := [modeCar],
    journey := { trips := [exCarLeg], departure := 0, departureDelay := none,
                 arrival := 1000000000, arrivalDelay := none },
    vcId := "" }

/-- A slower bus option (five seconds of travel plus two seconds of delay). -/
def exBusOption : RouteOption :=
  { routeOptionId := "opt-bus", origin := [], destination := [], departure := 0,
    modes := [modeBus],
    journey := { trips := [exBusLeg], departure := 0, departureDelay := none,
                 arrival := 5000000000, arrivalDelay := some 2 },
    vcId := "" }

/-- A traveller with Vehicles.Usage nil: would not use a car. -/
def exCarlessTraveller : Traveller :=
  { employed := true, employmentType := none,
    vehicles := { car := none, moto := none, utilities := none, usage := none },
    age := "30", vcCreated := 0 }

/-- A result offering the fast car option and the slow bus option to a
traveller without car usage. -/
def exResultNoCar : RouteResult :=
  { docId := "d", vcId := "vc-1", simId := "sim",
    traveller := exCarlessTraveller, options := [exCarOption, exBusOption] }

/-- Scenario S5 of the spec, first half: the car option is rejected regardless
of duration ordering, so the slower bus option is selected. -/
lemma selected_rejects_car_example :
    getSelectedOption exResultNoCar = some { exBusOption with vcId := "vc-1" } := by
  decide

/-- Scenario S5 of the spec, second half: with only the car option on offer,
nothing is selected. -/
lemma selected_only_car_example :
    getSelectedOption { exResultNoCar with options := [exCarOption] } = none := by
  decide

/-- The polyline branch of extractTrace from results/hiveline/traces.go: one
element per decoded vertex (decoded vertices are (lat, lon); the point swaps
them to (lon, lat)), timed uniformly from the leg departure with step
dt = (arrival - departure) / len (Go integer division truncates toward zero;
Go would panic on a zero-length decode, a path no theorem here exercises),
the element at index 0 marked as leg start. -/
def polylineElements (leg : Leg) (legTrace : List (ℚ × ℚ)) : List TraceElement :=
  let start := leg.departure
  let dt := Int.tdiv (leg.arrival - start) (legTrace.length : Int)
  legTrace.enum.map fun ip =>
    { point := (ip.2.2, ip.2.1), time := start + (ip.1 : Int) * dt,
      mode := leg.mode, isLegStart := decide (ip.1 = 0) }

/-- The stopover branch of extractTrace from results/hiveline/traces.go: one
element per stopover that has a location (stopovers without one are skipped),
marked as leg start exactly at stopover index 0. The source computes the
fallback t (the stopover departure, or its arrival when the departure is the
zero time) but then timestamps the element with stopover.Departure.Time, so t
is dead code; the element time here is the departure, as in the source. -/
def stopoverElements (leg : Leg) : List TraceElement :=
  leg.stopovers.enum.filterMap fun is =>
    match is.2.location with
    | none => none
    | some loc =>
      let _t := if is.2.departure = 0 then is.2.arrival else is.2.departure
      some { point := loc, time := is.2.departure, mode := leg.mode,
             isLegStart := decide (is.1 = 0) }

/-- The origin/destination branch of extractTrace from
results/hiveline/traces.go: two elements when both locations exist, the first
marked as leg start; nothing otherwise. -/
def originDestElements (leg : Leg) : List TraceElement :=
  match leg.origin, leg.destination with
  | some o, some d =>
    [{ point := o, time := leg.departure, mode := leg.mode, isLegStart := true },
     { point := d, time := leg.arrival, mode := leg.mode, isLegStart := false }]
  | _, _ => []

/-- The part of extractTrace reached when no polyline was decoded: the
origin/destination branch when there are no stopovers, the stopover branch
otherwise. -/
def legElementsNoPoly (leg : Leg) : List TraceElement :=
  if leg.stopovers.length = 0 then originDestElements leg else stopoverElements leg

/-- The elements extractTrace emits for one leg: the polyline branch when the
polyline string is non-empty and decodes (the external polyline.DecodeCoords
is the decode parameter, none standing for a decode error), the other two
branches otherwise. -/
def legElements (decode : String → Option (List (ℚ × ℚ))) (leg : Leg) :
    List TraceElement :=
  if leg.polyline ≠ "" then
    match decode leg.polyline with
    | some legTrace => polylineElements leg legTrace
    | none => legElementsNoPoly leg
  else legElementsNoPoly leg

/-- extractTrace from results/hiveline/traces.go: the per-leg emissions of all
trips of the option's journey, concatenated in order into one trace. -/
def extractTrace (decode : String → Option (List (ℚ × ℚ)))
    (option : RouteOption) : Trace :=
  { vcId := option.vcId, routeOptionId := option.routeOptionId,
    trace := (option.journey.trips.map (legElements decode)).flatten }

/-- The stopover branch of extractTrace is taken when no polyline was decoded
and stopovers exist. -/
def stopoverBranchTaken (decode : String → Option (List (ℚ × ℚ)))
    (leg : Leg) : Prop :=
  (leg.polyline = "" ∨ decode leg.polyline = none) ∧ leg.stopovers ≠ []

lemma stopoverElements_head (leg : Leg) (s0 : Stopover) (rest : List Stopover)
    (hs : leg.stopovers = s0 :: rest) (loc : GeoPoint) (hloc : s0.location = some loc) :
    (stopoverElements leg).head? =
      some { point := loc, time := s0.departure, mode := leg.mode, isLegStart := true } := by
  simp [stopoverElements, hs, List.enum_cons, List.filterMap_cons, hloc]

lemma legElementsNoPoly_head_legStart (leg : Leg) (e : TraceElement)
    (hhead : (legElementsNoPoly leg).head? = some e)
    (hfirst : leg.stopovers ≠ [] →
      ∀ s, leg.stopovers.head? = some s → s.location.isSome = true) :
    e.isLegStart = true := by
  unfold legElementsNoPoly at hhead
  by_cases hlen : leg.stopovers.length = 0
  · rw [if_pos hlen] at hhead
    unfold originDestElements at hhead
    rcases ho : leg.origin with - | o <;> rcases hd : leg.destination with - | d <;>
      rw [ho, hd] at hhead <;> simp at hhead
    subst hhead
    rfl
  · rw [if_neg hlen] at hhead
    rcases hsl : leg.stopovers with - | ⟨s0, rest⟩
    · exact absurd (by rw [hsl]; rfl) hlen
    · have hns : leg.stopovers ≠ [] := by rw [hsl]; exact List.cons_ne_nil s0 rest
      have hloc := hfirst hns s0 (by rw [hsl]; rfl)
      rcases hl : s0.location with - | loc
      · rw [hl] at hloc; cases hloc
      · rw [stopoverElements_head leg s0 rest hsl loc hl] at hhead
        obtain ⟨⟩ := hhead
        rfl

/-- Claim C7, amended: the first element emitted for a leg has IsLegStart true
in the polyline and origin/destination branches unconditionally; in the
stopover branch only the element of stopover index 0 is marked, so the first
emitted element is marked provided the first stopover has a location (a
stopover without one is skipped silently). -/
theorem legElements_head_legStart (decode : String → Option (List (ℚ × ℚ)))
    (leg : Leg) (e : TraceElement)
    (hhead : (legElements decode leg).head? = some e)
    (hfirst : stopoverBranchTaken decode leg →
      ∀ s, leg.stopovers.head? = some s → s.location.isSome = true) :
    e.isLegStart = true := by
  unfold legElements at hhead
  by_cases hp : leg.polyline ≠ ""
  · rw [if_pos hp] at hhead
    rcases hdec : decode leg.polyline with - | lt <;> rw [hdec] at hhead
    · exact legElementsNoPoly_head_legStart leg e hhead
        (fun hne => hfirst ⟨Or.inr hdec, hne⟩)
    · rcases lt with - | ⟨p, rest⟩
      · simp [polylineElements] at hhead
      · simp only [polylineElements, List.enum_cons, List.map_cons, List.head?_cons,
          Option.some.injEq] at hhead
        subst hhead
        rfl
  · rw [if_neg hp] at hhead
    exact legElementsNoPoly_head_legStart leg e hhead
      (fun hne => hfirst ⟨Or.inl (not_not.mp hp), hne⟩)

/-- A leg whose first stopover has no location: the source skips it, so the
leg's single emitted element comes from stopover index 1 and is not marked as
a leg start. -/
def exNoLocStopLeg : Leg :=
  { polyline := "", mode := modeBus, getMode := some modeBus, departure := 0,
    arrival := 10, origin := none, destination := none,
    stopovers := [{ location := none, departure := 1, arrival := 2 },
                  { location := some (3, 3), departure := 5, arrival := 6 }] }

/-- A route option around exNoLocStopLeg. -/
def exNoLocStopOption : RouteOption :=
  { routeOptionId := "ro-7", origin := [], destination := [], departure := 0,
    modes := [modeBus],
    journey := { trips := [exNoLocStopLeg], departure := 0, departureDelay := none,
                 arrival := 10, arrivalDelay := none },
    vcId := "vc-7" }

/-- Counterexample to claim C7 as stated: for this option the (only) leg's
first emitted element has IsLegStart false, because the first stopover lacks a
location and is skipped while the leg-start mark stays on stopover index 0. -/
theorem extractTrace_first_leg_elem_counterexample :
    (extractTrace (fun _ => none) exNoLocStopOption).trace =
      [{ point := (3, 3), time := 5, mode := modeBus, isLegStart := false }] := by
  decide

/-- A leg taking the stopover branch whose first stopover has a location. -/
def exLocStopLeg : Leg :=
  { polyline := "", mode := modeTrain, getMode := some modeTrain, departure := 0,
    arrival := 10, origin := none, destination := none,
    stopovers := [{ location := some (1, 1), departure := 7, arrival := 8 }] }

/-- Witness for the amended claim C7 at a stopover-branch leg with a located
first stopover: its first emitted element is marked as a leg start. -/
theorem legElements_head_legStart_witness :
    ({ point := (1, 1), time := 7, mode := modeTrain, isLegStart := true } :
      TraceElement).isLegStart = true :=
  legElements_head_legStart (fun _ => none) exLocStopLeg
    { point := (1, 1), time := 7, mode := modeTrain, isLegStart := true }
    (by decide)
    (by
      intro _ s hs
      have hh : exLocStopLeg.stopovers.head? =
          some { location := some (1, 1), departure := 7, arrival := 8 } := rfl
      rw [hh] at hs
      obtain ⟨⟩ := hs
      rfl)

/-- A leg whose only stopover has the zero departure time and arrival 5. -/
def exZeroDepLeg : Leg :=
  { polyline := "", mode := modeBus, getMode := some modeBus, departure := 0,
    arrival := 10, origin := none, destination := none,
    stopovers := [{ location := some (0, 0), departure := 0, arrival := 5 }] }

/-- A route option around exZeroDepLeg. -/
def exZeroDepOption : RouteOption :=
  { routeOptionId := "ro-8", origin := [], destination := [], departure := 0,
    modes := [modeBus],
    journey := { trips := [exZeroDepLeg], departure := 0, departureDelay := none,
                 arrival := 10, arrivalDelay := none },
    vcId := "vc-8" }

/-- Claim C8 evaluated at the failing input: the stopover has the zero
departure and arrival 5, yet the emitted element is timestamped 0, the zero
departure, not the arrival; the fallback variable t of the source is computed
but never used. -/
theorem extractTrace_stopover_zero_departure_eval :
    (extractTrace (fun _ => none) exZeroDepOption).trace =
      [{ point := (0, 0), time := 0, mode := modeBus, isLegStart := true }] := by
  decide

/-- The sentinel noNode of the street-graph matcher (math.MaxUint32). -/
def noNode : Nat := 2 ^ 32 - 1

/-- A hit of the street graph's k-d tree query: a street node, or an
edge-sample point carrying its owning edge's endpoints. -/
inductive KdHit where
  | node (id : Nat)
  | edgeSample (src dst : Nat)
deriving DecidableEq

/-- The street graph as the matcher consumes it: node points by id, the
external k-d tree query NodeTree.KNN(elem, 1), and the external Dijkstra
Shortest call on the graph copy of a worker index (none models the no-path
error). -/
structure StreetGraphM where
  nodePoint : Nat → GeoPoint
  knn1 : GeoPoint → List KdHit
  shortest : Nat → Nat → Nat → Option (List Nat)

/-- planar.DistanceSquared of the orb library. -/
def distanceSquared (a b : GeoPoint) : ℚ := (a.1 - b.1) ^ 2 + (a.2 - b.2) ^ 2

/-- getNodeOptionTrace from the street-graph matcher: snap each trace element
to a candidate node by a k=1 query; an empty answer becomes the sentinel; a
node hit gives its id; an edge-sample hit gives the endpoint nearer to the
element by planar squared distance. -/
def getNodeOptionTrace (g : StreetGraphM) (trace : Trace) : List Nat :=
  trace.trace.map fun elem =>
    match g.knn1 elem.point with
    | [] => noNode
    | hit :: _ =>
      match hit with
      | .node id => id
      | .edgeSample src dst =>
        if distanceSquared elem.point (g.nodePoint src) <
            distanceSquared elem.point (g.nodePoint dst)
        then src else dst

/-- The loop of matchTrace from the street-graph matcher: sentinels are
skipped; the first non-sentinel id becomes lastNode; every later non-sentinel
id is joined by the Shortest path from lastNode (the degenerate pair on a
no-path error), dropping the path's first node when output exists already.
The source never reassigns lastNode after its first assignment, so every path
is computed from the first non-sentinel id; this translation mirrors that. -/
def matchTraceGo (shortest : Nat → Nat → Option (List Nat)) :
    List Nat → Nat → List Nat → List Nat
  | [], _, matchedTrace => matchedTrace
  | node :: rest, lastNode, matchedTrace =>
    if node = noNode then matchTraceGo shortest rest lastNode matchedTrace
    else if lastNode = noNode then matchTraceGo shortest rest node matchedTrace
    else
      let path :=
        match shortest lastNode node with
        | none => [lastNode, node]
        | some p => p
      let path2 := if matchedTrace.length > 0 then path.tail else path
      matchTraceGo shortest rest lastNode (matchedTrace ++ path2)

/-- matchTrace from the street-graph matcher. -/
def matchTrace (shortest : Nat → Nat → Option (List Nat))
    (nodeOptionTrace : List Nat) : List Nat :=
  matchTraceGo shortest nodeOptionTrace noNode []

/-- matchTraceConnected from the street-graph matcher: snap, then stitch on
the worker's graph copy. -/
def matchTraceConnected (trace : Trace) (g : StreetGraphM) (dGraphKey : Nat) :
    List Nat :=
  matchTrace (g.shortest dGraphKey) (getNodeOptionTrace g trace)

/-- Node points of a three-node path graph 0 - 1 - 2. -/
def pathNodePoint : Nat → GeoPoint
  | 0 => (0, 0)
  | 1 => (1, 0)
  | _ => (2, 0)

/-- A k=1 query that snaps each of the three node points to its node. -/
def pathKnn1 : GeoPoint → List KdHit := fun p =>
  if p = (0, 0) then [.node 0]
  else if p = (1, 0) then [.node 1]
  else if p = (2, 0) then [.node 2]
  else []

/-- Shortest paths of the path graph 0 - 1 - 2, identical for every worker. -/
def pathShortest : Nat → Nat → Nat → Option (List Nat) := fun _ a b =>
  if a = 0 ∧ b = 1 then some [0, 1]
  else if a = 1 ∧ b = 2 then some [1, 2]
  else if a = 0 ∧ b = 2 then some [0, 1, 2]
  else if a = 1 ∧ b = 0 then some [1, 0]
  else if a = 2 ∧ b = 1 then some [2, 1]
  else if a = 2 ∧ b = 0 then some [2, 1, 0]
  else if a = b then some [a]
  else none

/-- The path graph 0 - 1 - 2 as a street graph. -/
def exStreetGraph : StreetGraphM :=
  { nodePoint := pathNodePoint, knn1 := pathKnn1, shortest := pathShortest }

/-- A car trace visiting the three nodes of the path graph in order. -/
def exMatchedTrace : Trace :=
  { vcId := "vc-m", routeOptionId := "ro-m",
    trace := [{ point := (0, 0), time := 0, mode := modeCar, isLegStart := true },
              { point := (1, 0), time := 1, mode := modeCar, isLegStart := false },
              { point := (2, 0), time := 2, mode := modeCar, isLegStart := false }] }

/-- Claim C3 evaluated at the failing input: the trace snaps to [0, 1, 2] on
the path graph, but the stitched output is [0, 1, 1, 2], because lastNode is
never advanced and the second path is Shortest(0, 2) = [0, 1, 2] with its head
dropped; stitching consecutive pairs as the claim states would give
Shortest(0, 1) then Shortest(1, 2) with its head dropped, hence [0, 1, 2]. -/
theorem matchTrace_stale_last_eval :
    getNodeOptionTrace exStreetGraph exMatchedTrace = [0, 1, 2] ∧
    matchTraceConnected exMatchedTrace exStreetGraph 0 = [0, 1, 1, 2] ∧
    matchTraceConnected exMatchedTrace exStreetGraph 0 ≠ [0, 1, 2] := by
  refine ⟨by decide, by decide, by decide⟩

/-- The containment bitmap computed at the top of filterTrace from
results/hiveline/traces.go: boundary.Contains of each element's point (the
Bounds interface is the b parameter). -/
def containsMap (b : GeoPoint → Bool) (t : List TraceElement) : List Bool :=
  t.map fun e => b e.point

/-- One iteration of the loop of filterTrace from results/hiveline/traces.go:
cont starts as the element's own containment and is forced to true when the
previous (i > 0) or next (i < n-1) bitmap entry is set; a kept element is
appended with the carried leg-start mark merged in (clearing the carry), a
dropped leg-start element sets the carry. -/
def filterStep (c : List Bool) (n : Nat) (acc : List TraceElement × Bool)
    (ie : Nat × TraceElement) : List TraceElement × Bool :=
  let i := ie.1
  let elem := ie.2
  let isLegStart := elem.isLegStart
  let cont := c.getD i false
  let cont := if decide (0 < i) && c.getD (i - 1) false && !cont then true else cont
  let cont := if decide (i < n - 1) && c.getD (i + 1) false && !cont then true else cont
  if cont then
    (acc.1 ++ [{ point := elem.point, time := elem.time, mode := elem.mode,
                 isLegStart := isLegStart || acc.2 }], false)
  else
    (acc.1, acc.2 || isLegStart)

/-- filterTrace from results/hiveline/traces.go: the bitmap pass, then the
index loop (the fold over the enumerated elements with the carry flag). -/
def filterTrace (b : GeoPoint → Bool) (trace : Trace) : Trace :=
  let c := containsMap b trace.trace
  { vcId := trace.vcId, routeOptionId := trace.routeOptionId,
    trace := (trace.trace.enum.foldl (filterStep c trace.trace.length) ([], false)).1 }

/-- The keep condition as claim C4 words it: the element at index i is kept
when its own point is contained, or the immediate predecessor's point is
contained, or the immediate successor's point is contained. -/
def keepAt (c : List Bool) (n i : Nat) : Bool :=
  c.getD i false || (decide (0 < i) && c.getD (i - 1) false) ||
    (decide (i < n - 1) && c.getD (i + 1) false)

/-- The carried leg-start mark as claim C4 words it: some dropped element
before index j had IsLegStart true and no element between it and j is kept. -/
def carriedAt (t : List TraceElement) (c : List Bool) (n j : Nat) : Bool :=
  (List.range j).any fun i =>
    !keepAt c n i && (t.getD i default).isLegStart &&
      ((List.range j).all fun l => decide (l ≤ i) || !keepAt c n l)

/-- The element claim C4 expects at a kept index j (none at a dropped one):
the original element with the carried leg-start mark merged into its own. -/
def claimElem (t : List TraceElement) (c : List Bool) (n j : Nat) :
    Option TraceElement :=
  if keepAt c n j then
    some { point := (t.getD j default).point, time := (t.getD j default).time,
           mode := (t.getD j default).mode,
           isLegStart := (t.getD j default).isLegStart || carriedAt t c n j }
  else none

/-- filterTrace as claim C4 describes it: keep exactly the indices satisfying
keepAt, in order, each with the carry-forward leg-start adjustment. -/
def claimFilterTrace (b : GeoPoint → Bool) (trace : Trace) : Trace :=
  { vcId := trace.vcId, routeOptionId := trace.routeOptionId,
    trace := (List.range trace.trace.length).filterMap
      (claimElem trace.trace (containsMap b trace.trace) trace.trace.length) }

lemma contChainBool (x a b p q : Bool) :
    (if q && b && !(if p && a && !x then true else x) then true
     else if p && a && !x then true else x) = (x || p && a || q && b) := by
  cases x <;> cases a <;> cases b <;> cases p <;> cases q <;> rfl

lemma filterStep_eval (c : List Bool) (n : Nat) (acc : List TraceElement × Bool)
    (i : Nat) (e : TraceElement) :
    filterStep c n acc (i, e) =
      if keepAt c n i then
        (acc.1 ++ [{ point := e.point, time := e.time, mode := e.mode,
                     isLegStart := e.isLegStart || acc.2 }], false)
      else (acc.1, acc.2 || e.isLegStart) := by
  simp only [filterStep, keepAt]
  rw [contChainBool]

lemma carriedAt_iff (t : List TraceElement) (c : List Bool) (n j : Nat) :
    carriedAt t c n j = true ↔
      ∃ i, i < j ∧ keepAt c n i = false ∧ (t.getD i default).isLegStart = true ∧
        ∀ l, l < j → i < l → keepAt c n l = false := by
  unfold carriedAt
  rw [List.any_eq_true]
  constructor
  · rintro ⟨i, hi, hp⟩
    rw [List.mem_range] at hi
    simp only [Bool.and_eq_true, Bool.not_eq_true'] at hp
    obtain ⟨⟨hk, hl⟩, hall⟩ := hp
    refine ⟨i, hi, hk, hl, ?_⟩
    intro l hl' hil
    have hx := List.all_eq_true.mp hall l (List.mem_range.mpr hl')
    simp only [Bool.or_eq_true, decide_eq_true_eq, Bool.not_eq_true'] at hx
    rcases hx with hx | hx
    · omega
    · exact hx
  · rintro ⟨i, hi, hk, hl, hall⟩
    refine ⟨i, List.mem_range.mpr hi, ?_⟩
    simp only [Bool.and_eq_true, Bool.not_eq_true']
    refine ⟨⟨hk, hl⟩, List.all_eq_true.mpr ?_⟩
    intro l hl'
    rw [List.mem_range] at hl'
    simp only [Bool.or_eq_true, decide_eq_true_eq, Bool.not_eq_true']
    by_cases hle : l ≤ i
    · exact Or.inl hle
    · exact Or.inr (hall l hl' (by omega))

lemma carriedAt_zero (t : List TraceElement) (c : List Bool) (n : Nat) :
    carriedAt t c n 0 = false := rfl

lemma carriedAt_succ_keep (t : List TraceElement) (c : List Bool) (n j : Nat)
    (hk : keepAt c n j = true) : carriedAt t c n (j + 1) = false := by
  rw [Bool.eq_false_iff]
  intro hc
  obtain ⟨i, hi, hki, hli, hall⟩ := (carriedAt_iff t c n (j + 1)).mp hc
  by_cases hij : i = j
  · subst hij
    rw [hk] at hki
    cases hki
  · have := hall j (by omega) (by omega)
    rw [hk] at this
    cases this

lemma carriedAt_succ_drop (t : List TraceElement) (c : List Bool) (n j : Nat)
    (hk : keepAt c n j = false) :
    carriedAt t c n (j + 1) = (carriedAt t c n j || (t.getD j default).isLegStart) := by
  rw [Bool.eq_iff_iff]
  constructor
  · intro hc
    obtain ⟨i, hi, hki, hli, hall⟩ := (carriedAt_iff t c n (j + 1)).mp hc
    by_cases hij : i = j
    · subst hij
      rw [hli, Bool.or_true]
    · have hij' : i < j := by omega
      have hcj : carriedAt t c n j = true :=
        (carriedAt_iff t c n j).mpr
          ⟨i, hij', hki, hli, fun l hl hil => hall l (by omega) hil⟩
      rw [hcj, Bool.true_or]
  · intro hc
    rw [Bool.or_eq_true] at hc
    rcases hc with hc | hc
    · obtain ⟨i, hi, hki, hli, hall⟩ := (carriedAt_iff t c n j).mp hc
      refine (carriedAt_iff t c n (j + 1)).mpr ⟨i, by omega, hki, hli, ?_⟩
      intro l hl hil
      by_cases hlj : l = j
      · subst hlj
        exact hk
      · exact hall l (by omega) hil
    · refine (carriedAt_iff t c n (j + 1)).mpr ⟨j, by omega, hk, hc, ?_⟩
      intro l hl hil
      exact absurd hil (by omega)

lemma filterFold_eq_claim (c : List Bool) (n : Nat) (t : List TraceElement) :
    ∀ (elems : List TraceElement) (j : Nat) (acc : List TraceElement) (carry : Bool),
      j + elems.length = n →
      (∀ k, k < elems.length → elems.getD k default = t.getD (j + k) default) →
      carry = carriedAt t c n j →
      ((List.enumFrom j elems).foldl (filterStep c n) (acc, carry)).1 =
        acc ++ (List.range' j elems.length).filterMap (claimElem t c n) := by
  intro elems
  induction elems with
  | nil =>
    intro j acc carry h1 h2 hc
    simp
  | cons e rest ih =>
    intro j acc carry h1 h2 hc
    have he : e = t.getD j default := by simpa using h2 0 (by simp)
    have hrest : ∀ k, k < rest.length → rest.getD k default = t.getD (j + 1 + k) default := by
      intro k hk
      have h3 := h2 (k + 1) (by simpa using Nat.succ_lt_succ hk)
      rw [List.getD_cons_succ] at h3
      rw [h3]
      congr 1
      omega
    rw [List.enumFrom_cons, List.foldl_cons, filterStep_eval]
    simp only [List.length_cons] at h1 ⊢
    by_cases hk : keepAt c n j = true
    · rw [if_pos hk]
      rw [ih (j + 1) _ false (by omega) hrest (carriedAt_succ_keep t c n j hk).symm]
      have hcl : claimElem t c n j =
          some { point := e.point, time := e.time, mode := e.mode,
                 isLegStart := e.isLegStart || carry } := by
        unfold claimElem
        rw [if_pos hk, ← he, hc]
      rw [List.range'_succ, List.filterMap_cons_some hcl]
      simp [List.append_assoc]
    · rw [if_neg hk]
      have hk' : keepAt c n j = false := by
        cases hkk : keepAt c n j
        · rfl
        · exact absurd hkk hk
      have hnext : (carry || e.isLegStart) = carriedAt t c n (j + 1) := by
        rw [carriedAt_succ_drop t c n j hk', hc, he]
      rw [ih (j + 1) acc (carry || e.isLegStart) (by omega) hrest hnext]
      have hcl : claimElem t c n j = none := by
        unfold claimElem
        rw [if_neg hk]
      rw [List.range'_succ, List.filterMap_cons_none hcl]

/-- Claim C4: filterTrace keeps exactly the elements whose own point, or whose
immediate predecessor's or successor's point, the boundary contains, in input
order; a kept element's IsLegStart is its own mark or-ed with the carried mark
of a dropped leg-start element not followed by any kept element before it. In
short, filterTrace coincides with the claim-side claimFilterTrace everywhere. -/
theorem filterTrace_eq_claimFilter (b : GeoPoint → Bool) (trace : Trace) :
    filterTrace b trace = claimFilterTrace b trace := by
  simp only [filterTrace, claimFilterTrace, Trace.mk.injEq, true_and]
  have h := filterFold_eq_claim (containsMap b trace.trace) trace.trace.length
      trace.trace trace.trace 0 [] false (by simp)
      (fun k hk => by rw [Nat.zero_add]) (carriedAt_zero ..).symm
  rw [List.range_eq_range']
  simpa using h
